import Mathlib

/-!
Verification of the multi-chain JSON-RPC request orchestrator of
src/dapps/react-dapp-v2/src/contexts/JsonRpcContext.tsx and of the chain
metadata tables of src/dapps/react-dapp-v2/src/chains/bch.ts and xmr.ts.

The TypeScript is shallowly embedded: the dispatcher
`_createJsonRpcRequestHandler` becomes a pure function that returns the
propagated error (if any) together with the ordered list of state
mutations and suspension points it performs; each namespace operation
becomes a pure function from the session channel's outcome (an
`Except String` value standing for the promise returned by
`client.request`) to the formatted response it produces; external
libraries (ethers, celo, erdjs, tronweb, the JSON layer) appear as
function parameters, since the orchestrator treats them as oracles.
-/

/-- JavaScript single-character `String.prototype.split`: accumulates the
current piece and starts a new piece at each separator, mirroring
`chainId.split(":")` in the source. -/
def splitAux (sep : Char) : List Char → List Char → List String
  | [], acc => [String.mk acc.reverse]
  | c :: cs, acc =>
    if c = sep then String.mk acc.reverse :: splitAux sep cs []
    else splitAux sep cs (c :: acc)

/-- Embedding of the JavaScript expression `s.split(sep)` for a
one-character separator. -/
def jsSplit (s : String) (sep : Char) : List String :=
  splitAux sep s.data []

/-- The `IFormattedRpcResponse` interface of JsonRpcContext.tsx: `method`
and `address` are optional fields, `valid` and `result` are mandatory. -/
structure IFormattedRpcResponse where
  method : Option String
  address : Option String
  valid : Bool
  result : String
deriving DecidableEq, Repr

/-- Outcome of the wrapped async operation `rpcRequest(chainId, address)`:
either it resolves with a formatted response or it rejects with an error
whose `message` field is the carried string. -/
inductive RpcOutcome where
  | success (resp : IFormattedRpcResponse)
  | failure (message : String)
deriving DecidableEq, Repr

/-- One observable step of the dispatcher: a `setPending` React state
update, the suspension point at which the wrapped operation runs, or a
`setResult` state update. -/
inductive HandlerEvent where
  | setPending (b : Bool)
  | invokeRpcRequest
  | setResult (resp : IFormattedRpcResponse)
deriving DecidableEq, Repr

/-- The dispatcher-owned mutable state: the `pending` flag and the
last-write-wins `result` slot. -/
structure HandlerState where
  pending : Bool
  result : Option IFormattedRpcResponse
deriving DecidableEq, Repr

/-- Effect of one dispatcher event on the orchestrator state. -/
def applyEvent (s : HandlerState) : HandlerEvent → HandlerState
  | HandlerEvent.setPending b => { s with pending := b }
  | HandlerEvent.invokeRpcRequest => s
  | HandlerEvent.setResult r => { s with result := some r }

/-- Replay a list of dispatcher events from a starting state. -/
def runEvents (s : HandlerState) (events : List HandlerEvent) : HandlerState :=
  events.foldl applyEvent s

/-- Embedding of `_createJsonRpcRequestHandler` (JsonRpcContext.tsx,
lines 154-183).  Returns the control outcome visible to the caller
(`Except.error` for a propagated throw, `Export.ok ()` for a normal
return) paired with the ordered list of events the call performs.  The
two guard clauses throw before any event; otherwise the handler sets
`pending` to true, runs the wrapped operation, stores either its
response or — in the catch branch — a record with no `method` field,
the call's `address`, `valid := false` and the rejection's message, and
finally sets `pending` back to false. -/
def createJsonRpcRequestHandler (clientPresent sessionPresent : Bool)
    (rpcRequest : String → String → RpcOutcome) (chainId address : String) :
    Except String Unit × List HandlerEvent :=
  if clientPresent = false then
    (Except.error "WalletConnect is not initialized", [])
  else if sessionPresent = false then
    (Except.error "Session is not connected", [])
  else
    match rpcRequest chainId address with
    | RpcOutcome.success resp =>
        (Except.ok (),
          [HandlerEvent.setPending true, HandlerEvent.invokeRpcRequest,
            HandlerEvent.setResult resp, HandlerEvent.setPending false])
    | RpcOutcome.failure message =>
        (Except.ok (),
          [HandlerEvent.setPending true, HandlerEvent.invokeRpcRequest,
            HandlerEvent.setResult
              { method := none, address := some address,
                valid := false, result := message },
            HandlerEvent.setPending false])

/-- Claim C1: for every operation wrapped by the dispatcher, if the client
or the session is absent the call throws a not-initialized error that
propagates to the caller, and no state mutation happens at all — in
particular the pending flag is never set to true and the result slot is
untouched. -/
theorem dispatcher_not_initialized_propagates
    (clientPresent sessionPresent : Bool)
    (rpcRequest : String → String → RpcOutcome) (chainId address : String)
    (h : clientPresent = false ∨ sessionPresent = false) :
    ((createJsonRpcRequestHandler clientPresent sessionPresent rpcRequest chainId address).fst
        = Except.error "WalletConnect is not initialized" ∨
      (createJsonRpcRequestHandler clientPresent sessionPresent rpcRequest chainId address).fst
        = Except.error "Session is not connected") ∧
    (createJsonRpcRequestHandler clientPresent sessionPresent rpcRequest chainId address).snd = [] ∧
    (∀ s0 : HandlerState,
      runEvents s0 (createJsonRpcRequestHandler clientPresent sessionPresent rpcRequest chainId address).snd
        = s0) := by
  cases clientPresent <;> cases sessionPresent <;>
    simp [createJsonRpcRequestHandler, runEvents] at h ⊢

/-- Witness for C1 at a concrete absent client. -/
theorem dispatcher_not_initialized_propagates_witness :
    (createJsonRpcRequestHandler false true (fun _ _ => RpcOutcome.failure "x")
      "eip155:1" "0xab").snd = [] :=
  (dispatcher_not_initialized_propagates false true (fun _ _ => RpcOutcome.failure "x")
    "eip155:1" "0xab" (Or.inl rfl)).2.1

/-- Claim C2: with client and session present, a rejection of the wrapped
operation is caught by the dispatcher (the call returns normally instead
of propagating) and the stored result record has `valid := false` and the
rejection's message in its `result` field. -/
theorem dispatcher_catches_operation_failure
    (rpcRequest : String → String → RpcOutcome) (chainId address message : String)
    (s0 : HandlerState)
    (hfail : rpcRequest chainId address = RpcOutcome.failure message) :
    (createJsonRpcRequestHandler true true rpcRequest chainId address).fst = Except.ok () ∧
    (runEvents s0 (createJsonRpcRequestHandler true true rpcRequest chainId address).snd).result
      = some { method := none, address := some address, valid := false, result := message } := by
  simp [createJsonRpcRequestHandler, hfail, runEvents, applyEvent]

/-- Witness for C2 at a concrete failing operation. -/
theorem dispatcher_catches_operation_failure_witness :
    (runEvents { pending := false, result := none }
      (createJsonRpcRequestHandler true true (fun _ _ => RpcOutcome.failure "boom")
        "eip155:1" "0xab").snd).result
      = some { method := none, address := some "0xab", valid := false, result := "boom" } :=
  (dispatcher_catches_operation_failure (fun _ _ => RpcOutcome.failure "boom")
    "eip155:1" "0xab" "boom" { pending := false, result := none } rfl).2

/-- Claim C3: with client and session present, the dispatcher's event
trace starts by setting the pending flag to true, the pending flag holds
true at the point the wrapped operation is invoked, and after the whole
call — on the success path and on the caught-error path alike — the
pending flag is false again. -/
theorem dispatcher_pending_lifecycle
    (rpcRequest : String → String → RpcOutcome) (chainId address : String)
    (s0 : HandlerState) (events : List HandlerEvent)
    (hevents : events = (createJsonRpcRequestHandler true true rpcRequest chainId address).snd) :
    events.head? = some (HandlerEvent.setPending true) ∧
    (∀ i, events.get? i = some HandlerEvent.invokeRpcRequest →
      (runEvents s0 (events.take i)).pending = true) ∧
    (runEvents s0 events).pending = false := by
  subst hevents
  cases hreq : rpcRequest chainId address with
  | success resp =>
    refine ⟨by simp [createJsonRpcRequestHandler, hreq], ?_,
      by simp [createJsonRpcRequestHandler, hreq, runEvents, applyEvent]⟩
    intro i hi
    simp only [createJsonRpcRequestHandler, hreq] at hi ⊢
    match i with
    | 0 => simp at hi
    | 1 => simp [runEvents, applyEvent]
    | 2 => simp at hi
    | 3 => simp at hi
    | n + 4 => simp at hi
  | failure message =>
    refine ⟨by simp [createJsonRpcRequestHandler, hreq], ?_,
      by simp [createJsonRpcRequestHandler, hreq, runEvents, applyEvent]⟩
    intro i hi
    simp only [createJsonRpcRequestHandler, hreq] at hi ⊢
    match i with
    | 0 => simp at hi
    | 1 => simp [runEvents, applyEvent]
    | 2 => simp at hi
    | 3 => simp at hi
    | n + 4 => simp at hi

/-- Witness for C3 at a concrete successful operation. -/
theorem dispatcher_pending_lifecycle_witness :
    (runEvents { pending := false, result := none }
      (createJsonRpcRequestHandler true true
        (fun _ _ => RpcOutcome.success
          { method := some "personal_sign", address := some "0xab",
            valid := true, result := "0xsig" })
        "eip155:1" "0xab").snd).pending = false :=
  (dispatcher_pending_lifecycle
    (fun _ _ => RpcOutcome.success
      { method := some "personal_sign", address := some "0xab",
        valid := true, result := "0xsig" })
    "eip155:1" "0xab" { pending := false, result := none } _ rfl).2.2

/-- Method-name constant `DEFAULT_EIP155_METHODS.ETH_SEND_TRANSACTION`.
Modelled from the spec: the `DEFAULT_*_METHODS` enumerations live in
src/constants, which is not part of the provided sources; the values are
the canonical WalletConnect RPC method names the spec calls "pure static
data" (§2, Namespace Method Table). -/
def ETH_SEND_TRANSACTION : String := "eth_sendTransaction"

/-- Method-name constant `DEFAULT_EIP155_METHODS.ETH_SIGN_TRANSACTION`.
Modelled from the spec: see `ETH_SEND_TRANSACTION`. -/
def ETH_SIGN_TRANSACTION : String := "eth_signTransaction"

/-- Method-name constant `DEFAULT_EIP155_METHODS.ETH_SIGN`.
Modelled from the spec: see `ETH_SEND_TRANSACTION`. -/
def ETH_SIGN : String := "eth_sign"

/-- Transaction skeleton returned by the helper `formatTestTransaction`
(the helper itself lives outside the orchestrator); only the two fee
fields enter the admission check `BigNumber.from(tx.gasPrice).mul(tx.gasLimit)`.
BigNumber values are arbitrary-precision integers, embedded as `Int`. -/
structure EthTransactionFields where
  gasPrice : Int
  gasLimit : Int
deriving DecidableEq, Repr

/-- Embedding of `ethereumRpc.testSendTransaction` (JsonRpcContext.tsx,
lines 230-268).  `accounts` is the session account directory,
`balances` gives `BigNumber.from(balances[account][0].balance || "0")`
for a found account, and `channelRequest` is the outcome of
`client.request` if it is reached.  The second component counts how many
times the session channel's `request` is invoked. -/
def ethereumRpc_testSendTransaction (accounts : List String)
    (balances : String → Int) (tx : EthTransactionFields)
    (channelRequest : Except String String) (chainId address : String) :
    Except String IFormattedRpcResponse × Nat :=
  match accounts.find? (fun a => a = chainId ++ ":" ++ address) with
  | none => (Except.error ("Account for " ++ chainId ++ ":" ++ address ++ " not found"), 0)
  | some account =>
    if balances account < tx.gasPrice * tx.gasLimit then
      (Except.ok
        { method := some ETH_SEND_TRANSACTION, address := some address,
          valid := false,
          result := "Insufficient funds for intrinsic transaction cost" }, 0)
    else
      match channelRequest with
      | Except.ok result =>
          (Except.ok
            { method := some ETH_SEND_TRANSACTION, address := some address,
              valid := true, result := result }, 1)
      | Except.error e => (Except.error e, 1)

/-- Claim C4: whenever the found account's balance is strictly below
`gasPrice * gasLimit`, `testSendTransaction` returns `valid := false`
with the literal insufficient-funds message and never invokes the
session channel (invocation count 0); otherwise the channel is invoked
exactly once. -/
theorem sendTransaction_insufficient_funds_short_circuit
    (accounts : List String) (balances : String → Int)
    (tx : EthTransactionFields) (channelRequest : Except String String)
    (chainId address account : String)
    (hacc : accounts.find? (fun a => a = chainId ++ ":" ++ address) = some account) :
    (balances account < tx.gasPrice * tx.gasLimit →
      ethereumRpc_testSendTransaction accounts balances tx channelRequest chainId address
        = (Except.ok
            { method := some ETH_SEND_TRANSACTION, address := some address,
              valid := false,
              result := "Insufficient funds for intrinsic transaction cost" }, 0)) ∧
    (¬ balances account < tx.gasPrice * tx.gasLimit →
      (ethereumRpc_testSendTransaction accounts balances tx channelRequest chainId address).snd
        = 1) := by
  constructor
  · intro hlt
    simp [ethereumRpc_testSendTransaction, hacc, hlt]
  · intro hge
    cases channelRequest <;> simp [ethereumRpc_testSendTransaction, hacc, hge]

/-- Witness for C4 at a concrete underfunded account. -/
theorem sendTransaction_insufficient_funds_short_circuit_witness :
    ethereumRpc_testSendTransaction ["eip155:1:0xab"] (fun _ => 5)
      { gasPrice := 2, gasLimit := 3 } (Except.ok "0xhash") "eip155:1" "0xab"
      = (Except.ok
          { method := some ETH_SEND_TRANSACTION, address := some "0xab",
            valid := false,
            result := "Insufficient funds for intrinsic transaction cost" }, 0) :=
  (sendTransaction_insufficient_funds_short_circuit ["eip155:1:0xab"] (fun _ => 5)
    { gasPrice := 2, gasLimit := 3 } (Except.ok "0xhash") "eip155:1" "0xab"
    "eip155:1:0xab" (by decide)).1 (by decide)

/-- The constant `CELO_ALFAJORES_CHAIN_ID` of `ethereumRpc.testSignTransaction`. -/
def CELO_ALFAJORES_CHAIN_ID : Nat := 44787

/-- The constant `CELO_MAINNET_CHAIN_ID` of `ethereumRpc.testSignTransaction`. -/
def CELO_MAINNET_CHAIN_ID : Nat := 42220

/-- JavaScript ASCII `toLowerCase` on one character, as it acts on the
hexadecimal address strings compared by the source. -/
def jsCharLower (c : Char) : Char :=
  if 65 ≤ c.toNat ∧ c.toNat ≤ 90 then Char.ofNat (c.toNat + 32) else c

/-- JavaScript `s.toLowerCase()` on the ASCII address strings compared by
the source. -/
def jsToLower (s : String) : String :=
  String.mk (s.data.map jsCharLower)

/-- Embedding of the verdict computation of `ethereumRpc.testSignTransaction`
(JsonRpcContext.tsx, lines 289-304): split the chainId, and if the
reference is one of the two Celo chain IDs recover the signer with
`recoverTransaction` and compare lower-cased addresses, otherwise
deserialize the signed transaction and run its `verifySignature`.
`recoverTransactionSigner` stands for the signer component of
`recoverTransaction(signedTx)` and `fromSerializedTxVerifySignature` for
`EthTransaction.fromSerializedTx(signedTx).verifySignature()`. -/
def ethereumRpc_testSignTransaction_verdict
    (recoverTransactionSigner : String → String)
    (fromSerializedTxVerifySignature : String → Bool)
    (chainId address signedTx : String) : Bool :=
  match (jsSplit chainId ':')[1]? with
  | some reference =>
    if reference = toString CELO_ALFAJORES_CHAIN_ID ∨
        reference = toString CELO_MAINNET_CHAIN_ID then
      decide (jsToLower (recoverTransactionSigner signedTx) = jsToLower address)
    else
      fromSerializedTxVerifySignature signedTx
  | none => fromSerializedTxVerifySignature signedTx

/-- Claim C6: the EVM sign-transaction verifier routes to the alternate
recovery routine (recover the signer and compare case-insensitively)
exactly when the chain reference is "44787" or "42220", and to the default
routine (deserialize and self-verify) for every other reference. -/
theorem ethSignTransaction_branch_selection
    (recoverTransactionSigner : String → String)
    (fromSerializedTxVerifySignature : String → Bool)
    (chainId address signedTx : String) :
    (((jsSplit chainId ':')[1]? = some (toString CELO_ALFAJORES_CHAIN_ID) ∨
        (jsSplit chainId ':')[1]? = some (toString CELO_MAINNET_CHAIN_ID)) →
      ethereumRpc_testSignTransaction_verdict recoverTransactionSigner
          fromSerializedTxVerifySignature chainId address signedTx
        = decide (jsToLower (recoverTransactionSigner signedTx) = jsToLower address)) ∧
    ((∀ r, (jsSplit chainId ':')[1]? = some r →
        r ≠ toString CELO_ALFAJORES_CHAIN_ID ∧ r ≠ toString CELO_MAINNET_CHAIN_ID) →
      ethereumRpc_testSignTransaction_verdict recoverTransactionSigner
          fromSerializedTxVerifySignature chainId address signedTx
        = fromSerializedTxVerifySignature signedTx) := by
  constructor
  · intro h
    rcases h with h | h <;> simp [ethereumRpc_testSignTransaction_verdict, h]
  · intro h
    unfold ethereumRpc_testSignTransaction_verdict
    cases href : (jsSplit chainId ':')[1]? with
    | none => rfl
    | some r =>
      have hr := h r href
      simp [hr.1, hr.2]

/-- Witness for C6 at the concrete Alfajores reference. -/
theorem ethSignTransaction_branch_selection_witness :
    ethereumRpc_testSignTransaction_verdict (fun _ => "0xAB") (fun _ => false)
      "eip155:44787" "0xab" "0xsignedtx" = true := by
  have h := (ethSignTransaction_branch_selection (fun _ => "0xAB") (fun _ => false)
    "eip155:44787" "0xab" "0xsignedtx").1 (Or.inl (by decide))
  rw [h]
  decide

/-- Folding a boolean conjunction from the left equals `all`, stated
generally for the reduce-based batch verifier. -/
theorem foldl_and_eq_all {α : Type} (f : α → Bool) :
    ∀ (l : List α) (a : Bool), l.foldl (fun acc x => acc && f x) a = (a && l.all f)
  | [], a => by simp
  | x :: l, a => by
    simp only [List.foldl_cons, List.all_cons]
    rw [foldl_and_eq_all f l (a && f x), Bool.and_assoc]

/-- Embedding of the verdict computation of `elrondRpc.testSignTransactions`
(JsonRpcContext.tsx, lines 1022-1033): the transactions are walked in
order with `reduce`, each one receives its index-matched signature via
`applySignature`, and the accumulator is AND-combined with the verifier's
verdict for that element, starting from `true`.  The index-wise pairing
of `result.signatures[index]` with the transaction list is embedded as
`List.zip`. -/
def elrondRpc_testSignTransactions_valid {Tx Sig : Type}
    (transactions : List Tx) (signatures : List Sig)
    (applySignature : Tx → Sig → Tx) (verify : Tx → Bool) : Bool :=
  (transactions.zip signatures).foldl
    (fun acc p => acc && verify (applySignature p.fst p.snd)) true

/-- Claim C5: the batch sign-transactions validity is the logical AND of
the per-element verification verdicts over the whole ordered sequence —
it is true exactly when every element verifies, and any single failing
element makes the whole batch invalid. -/
theorem elrond_batch_validity {Tx Sig : Type}
    (transactions : List Tx) (signatures : List Sig)
    (applySignature : Tx → Sig → Tx) (verify : Tx → Bool) :
    elrondRpc_testSignTransactions_valid transactions signatures applySignature verify
      = (transactions.zip signatures).all (fun p => verify (applySignature p.fst p.snd)) ∧
    (elrondRpc_testSignTransactions_valid transactions signatures applySignature verify = true ↔
      ∀ p ∈ transactions.zip signatures, verify (applySignature p.fst p.snd) = true) ∧
    (∀ p ∈ transactions.zip signatures, verify (applySignature p.fst p.snd) = false →
      elrondRpc_testSignTransactions_valid transactions signatures applySignature verify
        = false) := by
  have hall :
      elrondRpc_testSignTransactions_valid transactions signatures applySignature verify
        = (transactions.zip signatures).all (fun p => verify (applySignature p.fst p.snd)) := by
    simpa using
      foldl_and_eq_all (fun p => verify (applySignature p.fst p.snd))
        (transactions.zip signatures) true
  have hiff :
      elrondRpc_testSignTransactions_valid transactions signatures applySignature verify = true ↔
        ∀ p ∈ transactions.zip signatures, verify (applySignature p.fst p.snd) = true := by
    rw [hall]
    simp [List.all_eq_true]
  refine ⟨hall, hiff, ?_⟩
  intro p hp hfalse
  cases hval : elrondRpc_testSignTransactions_valid transactions signatures applySignature verify with
  | false => rfl
  | true =>
    have := hiff.mp hval p hp
    rw [hfalse] at this
    exact absurd this (by simp)

/-- Witness for C5: a three-element batch whose second element fails
verification is invalid as a whole. -/
theorem elrond_batch_validity_witness :
    elrondRpc_testSignTransactions_valid [1, 2, 3] [(), (), ()] (fun t _ => t)
      (fun t => t != 2) = false :=
  (elrond_batch_validity [1, 2, 3] [(), (), ()] (fun t _ => t) (fun t => t != 2)).2.2
    (2, ()) (by decide) (by decide)

/-- Method-name constant `DEFAULT_NEAR_METHODS.NEAR_SIGN_AND_SEND_TRANSACTION`.
Modelled from the spec: see `ETH_SEND_TRANSACTION`. -/
def NEAR_SIGN_AND_SEND_TRANSACTION : String := "near_signAndSendTransaction"

/-- Method-name constant `DEFAULT_NEAR_METHODS.NEAR_SIGN_AND_SEND_TRANSACTIONS`.
Modelled from the spec: see `ETH_SEND_TRANSACTION`. -/
def NEAR_SIGN_AND_SEND_TRANSACTIONS : String := "near_signAndSendTransactions"

/-- Method-name constant `DEFAULT_TRON_METHODS.TRON_SIGN_TRANSACTION`.
Modelled from the spec: see `ETH_SEND_TRANSACTION`. -/
def TRON_SIGN_TRANSACTION : String := "tron_signTransaction"

/-- Method-name constant `DEFAULT_TRON_METHODS.TRON_SIGN_MESSAGE`.
Modelled from the spec: see `ETH_SEND_TRANSACTION`. -/
def TRON_SIGN_MESSAGE : String := "tron_signMessage"

/-- Method-name constant `DEFAULT_TEZOS_METHODS.TEZOS_GET_ACCOUNTS`.
Modelled from the spec: see `ETH_SEND_TRANSACTION`. -/
def TEZOS_GET_ACCOUNTS : String := "tezos_getAccounts"

/-- Method-name constant `DEFAULT_TEZOS_METHODS.TEZOS_SEND`.
Modelled from the spec: see `ETH_SEND_TRANSACTION`. -/
def TEZOS_SEND : String := "tezos_send"

/-- Method-name constant `DEFAULT_TEZOS_METHODS.TEZOS_SIGN`.
Modelled from the spec: see `ETH_SEND_TRANSACTION`. -/
def TEZOS_SIGN : String := "tezos_sign"

/-- Method-name constant `DEFAULT_BCH_METHODS.BCH_GET_ADDRESSES`.
Modelled from the spec: see `ETH_SEND_TRANSACTION`. -/
def BCH_GET_ADDRESSES : String := "bch_getAddresses"

/-- Method-name constant `DEFAULT_BCH_METHODS.BCH_SIGN_TRANSACTION`.
Modelled from the spec: see `ETH_SEND_TRANSACTION`. -/
def BCH_SIGN_TRANSACTION : String := "bch_signTransaction"

/-- Method-name constant `DEFAULT_BCH_METHODS.BCH_SIGN_MESSAGE`.
Modelled from the spec: see `ETH_SEND_TRANSACTION`. -/
def BCH_SIGN_MESSAGE : String := "bch_signMessage"

/-- Method-name constant `DEFAULT_XMR_METHODS.XMR_GET_ADDRESSES`.
Modelled from the spec: see `ETH_SEND_TRANSACTION`. -/
def XMR_GET_ADDRESSES : String := "xmr_getAddresses"

/-- Method-name constant `DEFAULT_XMR_METHODS.XMR_SIGN_TRANSACTION`.
Modelled from the spec: see `ETH_SEND_TRANSACTION`. -/
def XMR_SIGN_TRANSACTION : String := "xmr_signTransaction"

/-- Method-name constant `DEFAULT_XMR_METHODS.XMR_SIGN_MESSAGE`.
Modelled from the spec: see `ETH_SEND_TRANSACTION`. -/
def XMR_SIGN_MESSAGE : String := "xmr_signMessage"

/-- Method-name constant `DEFAULT_XMR_METHODS.XMR_GET_BALANCE`.
Modelled from the spec: see `ETH_SEND_TRANSACTION`. -/
def XMR_GET_BALANCE : String := "xmr_getBalance"

/-- Method-name constant `DEFAULT_XMR_METHODS.XMR_GET_UNLOCKED_BALANCE`.
Modelled from the spec: see `ETH_SEND_TRANSACTION`. -/
def XMR_GET_UNLOCKED_BALANCE : String := "xmr_getUnlockedBalance"

/-- Method-name constant `DEFAULT_XMR_METHODS.XMR_GET_BALANCES`.
Modelled from the spec: see `ETH_SEND_TRANSACTION`. -/
def XMR_GET_BALANCES : String := "xmr_getBalances"

/-- Channel response carrying a `hash` field. -/
structure HashResult where
  hash : String
deriving DecidableEq, Repr

/-- Channel response carrying a `signature` field. -/
structure SignatureResult where
  signature : String
deriving DecidableEq, Repr

/-- Message of the error rethrown by the `catch (error) { throw new Error(error) }`
pattern of the Tron operations: JavaScript coerces the caught `Error`
object to the string "Error: <message>" when it becomes the new error's
message. -/
def rethrownMessage (message : String) : String := "Error: " ++ message

/-- Embedding of `nearRpc.testSignAndSendTransaction` (JsonRpcContext.tsx,
lines 802-840): on a resolved channel call the result is
`JSON.stringify(result.transaction)` — abstracted as
`stringifyTransaction` — and `valid` is the literal `true`; rejections
propagate uncaught to the dispatcher. -/
def nearRpc_testSignAndSendTransaction {α : Type} (stringifyTransaction : α → String)
    (channelRequest : Except String α) (address : String) :
    Except String IFormattedRpcResponse :=
  match channelRequest with
  | Except.ok result =>
      Except.ok
        { method := some NEAR_SIGN_AND_SEND_TRANSACTION, address := some address,
          valid := true, result := stringifyTransaction result }
  | Except.error e => Except.error e

/-- Embedding of `nearRpc.testSignAndSendTransactions` (JsonRpcContext.tsx,
lines 841-898); same shape as the single-transaction variant. -/
def nearRpc_testSignAndSendTransactions {α : Type} (stringifyTransactions : α → String)
    (channelRequest : Except String α) (address : String) :
    Except String IFormattedRpcResponse :=
  match channelRequest with
  | Except.ok result =>
      Except.ok
        { method := some NEAR_SIGN_AND_SEND_TRANSACTIONS, address := some address,
          valid := true, result := stringifyTransactions result }
  | Except.error e => Except.error e

/-- Embedding of `tronRpc.testSignTransaction` (JsonRpcContext.tsx, lines
1096-1154): a resolved call yields `valid := true` with the returned
signature; the catch branch rethrows `new Error(error)`. -/
def tronRpc_testSignTransaction (channelRequest : Except String SignatureResult)
    (address : String) : Except String IFormattedRpcResponse :=
  match channelRequest with
  | Except.ok result =>
      Except.ok
        { method := some TRON_SIGN_TRANSACTION, address := some address,
          valid := true, result := result.signature }
  | Except.error e => Except.error (rethrownMessage e)

/-- Embedding of `tronRpc.testSignMessage` (JsonRpcContext.tsx, lines
1155-1185). -/
def tronRpc_testSignMessage (channelRequest : Except String SignatureResult)
    (address : String) : Except String IFormattedRpcResponse :=
  match channelRequest with
  | Except.ok result =>
      Except.ok
        { method := some TRON_SIGN_MESSAGE, address := some address,
          valid := true, result := result.signature }
  | Except.error e => Except.error (rethrownMessage e)

/-- Embedding of `tezosRpc.testGetAccounts` (JsonRpcContext.tsx, lines
1191-1216): `valid := true` with `JSON.stringify(result, null, 2)`,
abstracted as `stringifyResult`; the catch rethrows with the original
message (`new Error(error.message)`). -/
def tezosRpc_testGetAccounts {α : Type} (stringifyResult : α → String)
    (channelRequest : Except String α) (address : String) :
    Except String IFormattedRpcResponse :=
  match channelRequest with
  | Except.ok result =>
      Except.ok
        { method := some TEZOS_GET_ACCOUNTS, address := some address,
          valid := true, result := stringifyResult result }
  | Except.error e => Except.error e

/-- Embedding of `tezosRpc.testSignTransaction` (JsonRpcContext.tsx, lines
1217-1251): `valid := true` with the returned operation hash. -/
def tezosRpc_testSignTransaction (channelRequest : Except String HashResult)
    (address : String) : Except String IFormattedRpcResponse :=
  match channelRequest with
  | Except.ok result =>
      Except.ok
        { method := some TEZOS_SEND, address := some address,
          valid := true, result := result.hash }
  | Except.error e => Except.error e

/-- Embedding of `tezosRpc.testSignMessage` (JsonRpcContext.tsx, lines
1252-1282). -/
def tezosRpc_testSignMessage (channelRequest : Except String SignatureResult)
    (address : String) : Except String IFormattedRpcResponse :=
  match channelRequest with
  | Except.ok result =>
      Except.ok
        { method := some TEZOS_SIGN, address := some address,
          valid := true, result := result.signature }
  | Except.error e => Except.error e

/-- Embedding of `bchRpc.testGetAddresses` (JsonRpcContext.tsx, lines
1288-1313). -/
def bchRpc_testGetAddresses {α : Type} (stringifyResult : α → String)
    (channelRequest : Except String α) (address : String) :
    Except String IFormattedRpcResponse :=
  match channelRequest with
  | Except.ok result =>
      Except.ok
        { method := some BCH_GET_ADDRESSES, address := some address,
          valid := true, result := stringifyResult result }
  | Except.error e => Except.error e

/-- Embedding of `bchRpc.testSignTransaction` (JsonRpcContext.tsx, lines
1314-1467): the fixed covenant-minting transaction payload is opaque to
the verdict; a resolved call yields `valid := true` with the returned
hash. -/
def bchRpc_testSignTransaction (channelRequest : Except String HashResult)
    (address : String) : Except String IFormattedRpcResponse :=
  match channelRequest with
  | Except.ok result =>
      Except.ok
        { method := some BCH_SIGN_TRANSACTION, address := some address,
          valid := true, result := result.hash }
  | Except.error e => Except.error e

/-- Embedding of `bchRpc.testSignMessage` (JsonRpcContext.tsx, lines
1469-1500): the channel returns the signature string directly. -/
def bchRpc_testSignMessage (channelRequest : Except String String)
    (address : String) : Except String IFormattedRpcResponse :=
  match channelRequest with
  | Except.ok result =>
      Except.ok
        { method := some BCH_SIGN_MESSAGE, address := some address,
          valid := true, result := result }
  | Except.error e => Except.error e

/-- Embedding of `xmrRpc.testGetAddresses` (JsonRpcContext.tsx, lines
1507-1532). -/
def xmrRpc_testGetAddresses {α : Type} (stringifyResult : α → String)
    (channelRequest : Except String α) (address : String) :
    Except String IFormattedRpcResponse :=
  match channelRequest with
  | Except.ok result =>
      Except.ok
        { method := some XMR_GET_ADDRESSES, address := some address,
          valid := true, result := stringifyResult result }
  | Except.error e => Except.error e

/-- Embedding of `xmrRpc.testSignTransaction` (JsonRpcContext.tsx, lines
1533-1577): a resolved call yields `valid := true` with the returned
transaction hash; no cryptographic check is run on it. -/
def xmrRpc_testSignTransaction (channelRequest : Except String HashResult)
    (address : String) : Except String IFormattedRpcResponse :=
  match channelRequest with
  | Except.ok result =>
      Except.ok
        { method := some XMR_SIGN_TRANSACTION, address := some address,
          valid := true, result := result.hash }
  | Except.error e => Except.error e

/-- Embedding of `xmrRpc.testSignMessage` (JsonRpcContext.tsx, lines
1579-1610). -/
def xmrRpc_testSignMessage (channelRequest : Except String String)
    (address : String) : Except String IFormattedRpcResponse :=
  match channelRequest with
  | Except.ok result =>
      Except.ok
        { method := some XMR_SIGN_MESSAGE, address := some address,
          valid := true, result := result }
  | Except.error e => Except.error e

/-- Embedding of `xmrRpc.testGetBalance` (JsonRpcContext.tsx, lines
1612-1640): the resolved value is re-encoded through the extended-JSON
layer and displayed with `toString`, abstracted as `parsedToString`;
`valid := true` unconditionally on resolution. -/
def xmrRpc_testGetBalance {α : Type} (parsedToString : α → String)
    (channelRequest : Except String α) (address : String) :
    Except String IFormattedRpcResponse :=
  match channelRequest with
  | Except.ok result =>
      Except.ok
        { method := some XMR_GET_BALANCE, address := some address,
          valid := true, result := parsedToString result }
  | Except.error e => Except.error e

/-- Embedding of `xmrRpc.testGetUnlockedBalance` (JsonRpcContext.tsx,
lines 1642-1669). -/
def xmrRpc_testGetUnlockedBalance {α : Type} (parsedToString : α → String)
    (channelRequest : Except String α) (address : String) :
    Except String IFormattedRpcResponse :=
  match channelRequest with
  | Except.ok result =>
      Except.ok
        { method := some XMR_GET_UNLOCKED_BALANCE, address := some address,
          valid := true, result := parsedToString result }
  | Except.error e => Except.error e

/-- Embedding of `xmrRpc.testGetBalances` (JsonRpcContext.tsx, lines
1671-1700). -/
def xmrRpc_testGetBalances {α : Type} (stringifyExtended : α → String)
    (channelRequest : Except String α) (address : String) :
    Except String IFormattedRpcResponse :=
  match channelRequest with
  | Except.ok result =>
      Except.ok
        { method := some XMR_GET_BALANCES, address := some address,
          valid := true, result := stringifyExtended result }
  | Except.error e => Except.error e

/-- Claim C7: every XMR operation, and likewise every Near, Tron, Tezos
and BCH operation — the namespaces with no client-side verification
oracle — reports `valid = true` whenever the session channel's request
resolves without error; no verification is performed on the returned
artifact. -/
theorem no_oracle_namespaces_valid_true :
    (∀ (α : Type) (f : α → String) (raw : α) (address : String),
      (nearRpc_testSignAndSendTransaction f (Except.ok raw) address).map
        IFormattedRpcResponse.valid = Except.ok true) ∧
    (∀ (α : Type) (f : α → String) (raw : α) (address : String),
      (nearRpc_testSignAndSendTransactions f (Except.ok raw) address).map
        IFormattedRpcResponse.valid = Except.ok true) ∧
    (∀ (raw : SignatureResult) (address : String),
      (tronRpc_testSignTransaction (Except.ok raw) address).map
        IFormattedRpcResponse.valid = Except.ok true) ∧
    (∀ (raw : SignatureResult) (address : String),
      (tronRpc_testSignMessage (Except.ok raw) address).map
        IFormattedRpcResponse.valid = Except.ok true) ∧
    (∀ (α : Type) (f : α → String) (raw : α) (address : String),
      (tezosRpc_testGetAccounts f (Except.ok raw) address).map
        IFormattedRpcResponse.valid = Except.ok true) ∧
    (∀ (raw : HashResult) (address : String),
      (tezosRpc_testSignTransaction (Except.ok raw) address).map
        IFormattedRpcResponse.valid = Except.ok true) ∧
    (∀ (raw : SignatureResult) (address : String),
      (tezosRpc_testSignMessage (Except.ok raw) address).map
        IFormattedRpcResponse.valid = Except.ok true) ∧
    (∀ (α : Type) (f : α → String) (raw : α) (address : String),
      (bchRpc_testGetAddresses f (Except.ok raw) address).map
        IFormattedRpcResponse.valid = Except.ok true) ∧
    (∀ (raw : HashResult) (address : String),
      (bchRpc_testSignTransaction (Except.ok raw) address).map
        IFormattedRpcResponse.valid = Except.ok true) ∧
    (∀ (raw : String) (address : String),
      (bchRpc_testSignMessage (Except.ok raw) address).map
        IFormattedRpcResponse.valid = Except.ok true) ∧
    (∀ (α : Type) (f : α → String) (raw : α) (address : String),
      (xmrRpc_testGetAddresses f (Except.ok raw) address).map
        IFormattedRpcResponse.valid = Except.ok true) ∧
    (∀ (raw : HashResult) (address : String),
      (xmrRpc_testSignTransaction (Except.ok raw) address).map
        IFormattedRpcResponse.valid = Except.ok true) ∧
    (∀ (raw : String) (address : String),
      (xmrRpc_testSignMessage (Except.ok raw) address).map
        IFormattedRpcResponse.valid = Except.ok true) ∧
    (∀ (α : Type) (f : α → String) (raw : α) (address : String),
      (xmrRpc_testGetBalance f (Except.ok raw) address).map
        IFormattedRpcResponse.valid = Except.ok true) ∧
    (∀ (α : Type) (f : α → String) (raw : α) (address : String),
      (xmrRpc_testGetUnlockedBalance f (Except.ok raw) address).map
        IFormattedRpcResponse.valid = Except.ok true) ∧
    (∀ (α : Type) (f : α → String) (raw : α) (address : String),
      (xmrRpc_testGetBalances f (Except.ok raw) address).map
        IFormattedRpcResponse.valid = Except.ok true) := by
  refine ⟨?_, ?_, ?_, ?_, ?_, ?_, ?_, ?_, ?_, ?_, ?_, ?_, ?_, ?_, ?_, ?_⟩ <;>
    · intros
      rfl

/-- Embedding of `ethereumRpc.testEthSign` (JsonRpcContext.tsx, lines
361-406): after the channel resolves, a missing rpc-provider entry
throws; otherwise the stored method name is the decorated variant
`ETH_SIGN + " (standard)"`, `valid` is the external recovery oracle's
verdict, and the result is the signature. -/
def ethereumRpc_testEthSign (channelRequest : Except String String)
    (rpcProviderDefined : Bool) (chainId address : String)
    (verifySignatureResult : Bool) : Except String IFormattedRpcResponse :=
  match channelRequest with
  | Except.error e => Except.error e
  | Except.ok signature =>
    if rpcProviderDefined = false then
      Except.error ("Missing rpcProvider definition for chainId: " ++ chainId)
    else
      Except.ok
        { method := some (ETH_SIGN ++ " (standard)"), address := some address,
          valid := verifySignatureResult, result := signature }

/-- Counterexample to claim C8: with client and session present and an
operation that throws, the dispatcher's catch branch stores a result
record whose `method` field is absent (`none`) rather than the canonical
RPC method name — the claim fails on the caught-exception path. -/
theorem dispatcher_error_path_method_unset_cex :
    (runEvents { pending := false, result := none }
      (createJsonRpcRequestHandler true true
        (fun _ _ => RpcOutcome.failure "request failed") "eip155:1" "0xcd").snd).result
      = some { method := none, address := some "0xcd", valid := false,
               result := "request failed" } := by
  rfl

/-- Claim C8 (amended): on the success path the dispatcher stores the
operation's record unchanged — and each operation sets that record's
`method` field to its canonical RPC method name, the eth_sign operation
using the decorated variant "eth_sign (standard)" — while on the
caught-exception path the stored record's `method` field is left unset
(`none`). -/
theorem dispatcher_method_field_amended
    (rpcRequest : String → String → RpcOutcome) (chainId address : String)
    (s0 : HandlerState) :
    (∀ resp, rpcRequest chainId address = RpcOutcome.success resp →
      (runEvents s0 (createJsonRpcRequestHandler true true rpcRequest chainId address).snd).result
        = some resp) ∧
    (∀ message, rpcRequest chainId address = RpcOutcome.failure message →
      ((runEvents s0 (createJsonRpcRequestHandler true true rpcRequest chainId address).snd).result).map
          IFormattedRpcResponse.method = some none) ∧
    (∀ (signedMessage : String) (verdict : Bool) (c a : String),
      ethereumRpc_testEthSign (Except.ok signedMessage) true c a verdict
        = Except.ok
            { method := some (ETH_SIGN ++ " (standard)"), address := some a,
              valid := verdict, result := signedMessage }) := by
  refine ⟨?_, ?_, fun _ _ _ _ => rfl⟩
  · intro resp hresp
    simp [createJsonRpcRequestHandler, hresp, runEvents, applyEvent]
  · intro message hmsg
    simp [createJsonRpcRequestHandler, hmsg, runEvents, applyEvent]

/-- Witness for the amended C8 at a concrete successful operation. -/
theorem dispatcher_method_field_amended_witness :
    (runEvents { pending := false, result := none }
      (createJsonRpcRequestHandler true true
        (fun _ _ => RpcOutcome.success
          { method := some "eth_sign (standard)", address := some "0xab",
            valid := true, result := "0xsig" })
        "eip155:1" "0xab").snd).result
      = some { method := some "eth_sign (standard)", address := some "0xab",
               valid := true, result := "0xsig" } :=
  (dispatcher_method_field_amended
    (fun _ _ => RpcOutcome.success
      { method := some "eth_sign (standard)", address := some "0xab",
        valid := true, result := "0xsig" })
    "eip155:1" "0xab" { pending := false, result := none }).1 _ rfl

/-- The `ChainMetadata` record of the chains helpers: per-reference logo
URL and accent color. -/
structure ChainMetadata where
  logo : String
  rgb : String
deriving DecidableEq, Repr

/-- The `BchMetadata` map of src/dapps/react-dapp-v2/src/chains/bch.ts,
keyed by chain reference. -/
def BchMetadata : String → Option ChainMetadata := fun reference =>
  if reference = "bitcoincash" then
    some { logo := "https://assets.coingecko.com/coins/images/780/small/bitcoin-cash-circle.png",
           rgb := "27, 31, 53" }
  else if reference = "bchtest" then
    some { logo := "https://assets.coingecko.com/coins/images/780/small/bitcoin-cash-circle.png",
           rgb := "27, 31, 53" }
  else none

/-- The `XmrMetadata` map of src/dapps/react-dapp-v2/src/chains/xmr.ts,
keyed by chain reference. -/
def XmrMetadata : String → Option ChainMetadata := fun reference =>
  if reference = "mainnet" then
    some { logo := "https://monujo.cash/images/xmr-icon.png", rgb := "224, 111, 55" }
  else if reference = "testnet" then
    some { logo := "https://monujo.cash/images/xmr-icon.png", rgb := "224, 111, 55" }
  else none

/-- Embedding of `getChainMetadata` of chains/bch.ts (lines 40-47): take
the component after the first colon of the chainId, look it up in the
metadata map, and throw when the component is missing (no colon in the
chainId) or the lookup is undefined. -/
def getChainMetadataBch (chainId : String) : Except String ChainMetadata :=
  match (jsSplit chainId ':')[1]? with
  | some reference =>
    match BchMetadata reference with
    | some metadata => Except.ok metadata
    | none => Except.error ("No chain metadata found for chainId: " ++ chainId)
  | none => Except.error ("No chain metadata found for chainId: " ++ chainId)

/-- Embedding of `getChainMetadata` of chains/xmr.ts (lines 40-47). -/
def getChainMetadataXmr (chainId : String) : Except String ChainMetadata :=
  match (jsSplit chainId ':')[1]? with
  | some reference =>
    match XmrMetadata reference with
    | some metadata => Except.ok metadata
    | none => Except.error ("No chain metadata found for chainId: " ++ chainId)
  | none => Except.error ("No chain metadata found for chainId: " ++ chainId)

/-- Claim C10: each chain-metadata lookup (BCH and XMR) succeeds exactly
when the reference component after the first colon exists and is a key of
the namespace's metadata map; in that case it returns the map's entry
unchanged, and in every other case it throws the no-metadata error. -/
theorem getChainMetadata_lookup_iff (chainId : String) :
    ((∃ m, getChainMetadataBch chainId = Except.ok m) ↔
      (∃ r, (jsSplit chainId ':')[1]? = some r ∧ (BchMetadata r).isSome)) ∧
    (∀ r m, (jsSplit chainId ':')[1]? = some r → BchMetadata r = some m →
      getChainMetadataBch chainId = Except.ok m) ∧
    ((¬ ∃ r, (jsSplit chainId ':')[1]? = some r ∧ (BchMetadata r).isSome) →
      getChainMetadataBch chainId
        = Except.error ("No chain metadata found for chainId: " ++ chainId)) ∧
    ((∃ m, getChainMetadataXmr chainId = Except.ok m) ↔
      (∃ r, (jsSplit chainId ':')[1]? = some r ∧ (XmrMetadata r).isSome)) ∧
    (∀ r m, (jsSplit chainId ':')[1]? = some r → XmrMetadata r = some m →
      getChainMetadataXmr chainId = Except.ok m) ∧
    ((¬ ∃ r, (jsSplit chainId ':')[1]? = some r ∧ (XmrMetadata r).isSome) →
      getChainMetadataXmr chainId
        = Except.error ("No chain metadata found for chainId: " ++ chainId)) := by
  refine ⟨?_, ?_, ?_, ?_, ?_, ?_⟩
  · unfold getChainMetadataBch
    cases h1 : (jsSplit chainId ':')[1]? with
    | none => simp
    | some r =>
      cases h2 : BchMetadata r with
      | none => simp [h2]
      | some m => simp [h2]
  · intro r m h1 h2
    simp [getChainMetadataBch, h1, h2]
  · intro hno
    unfold getChainMetadataBch
    cases h1 : (jsSplit chainId ':')[1]? with
    | none => rfl
    | some r =>
      cases h2 : BchMetadata r with
      | some m => exact absurd ⟨r, h1, by simp [h2]⟩ hno
      | none => simp [h2]
  · unfold getChainMetadataXmr
    cases h1 : (jsSplit chainId ':')[1]? with
    | none => simp
    | some r =>
      cases h2 : XmrMetadata r with
      | none => simp [h2]
      | some m => simp [h2]
  · intro r m h1 h2
    simp [getChainMetadataXmr, h1, h2]
  · intro hno
    unfold getChainMetadataXmr
    cases h1 : (jsSplit chainId ':')[1]? with
    | none => rfl
    | some r =>
      cases h2 : XmrMetadata r with
      | some m => exact absurd ⟨r, h1, by simp [h2]⟩ hno
      | none => simp [h2]

/-- Witness for C10 at the concrete BCH mainnet chainId. -/
theorem getChainMetadata_lookup_iff_witness :
    getChainMetadataBch "bch:bitcoincash"
      = Except.ok
          { logo := "https://assets.coingecko.com/coins/images/780/small/bitcoin-cash-circle.png",
            rgb := "27, 31, 53" } :=
  (getChainMetadata_lookup_iff "bch:bitcoincash").2.1 "bitcoincash" _ (by decide) rfl

/-- Little-endian base-10 digits of a natural number, with explicit fuel
so the definition is structural and kernel-evaluable. -/
def natDigitsAux : Nat → Nat → List Nat
  | 0, _ => []
  | fuel + 1, n => if n = 0 then [] else n % 10 :: natDigitsAux fuel (n / 10)

/-- Little-endian base-10 digits of a natural number (empty for zero). -/
def natDigits (n : Nat) : List Nat := natDigitsAux n n

/-- Character of one decimal digit. -/
def digitChar (d : Nat) : Char := Char.ofNat (48 + d)

/-- Decimal character representation of a natural number, most
significant digit first, as produced by JavaScript `String(n)`. -/
def natChars (n : Nat) : List Char :=
  if n = 0 then ['0'] else (natDigits n).reverse.map digitChar

/-- Decimal character representation of an integer, as produced by
JavaScript `String(n)` for a BigInt (a leading minus for negatives). -/
def intChars (n : Int) : List Char :=
  if n < 0 then '-' :: natChars n.natAbs else natChars n.natAbs

/-- Value of one decimal digit character. -/
def digitVal (c : Char) : Option Nat :=
  if 48 ≤ c.toNat ∧ c.toNat ≤ 57 then some (c.toNat - 48) else none

/-- Parse every character of the list as a decimal digit. -/
def parseDigitList : List Char → Option (List Nat)
  | [] => some []
  | c :: cs =>
    match digitVal c, parseDigitList cs with
    | some d, some ds => some (d :: ds)
    | _, _ => none

/-- Numeric value of a little-endian digit list. -/
def digitListVal : List Nat → Nat
  | [] => 0
  | d :: ds => d + 10 * digitListVal ds

/-- Parse a nonempty all-digit character list as a natural number. -/
def parseNatChars (cs : List Char) : Option Nat :=
  if cs = [] then none
  else
    match parseDigitList cs with
    | some ds => some (digitListVal ds.reverse)
    | none => none

/-- Parse a decimal integer with an optional leading minus sign. -/
def parseSignedChars : List Char → Option Int
  | [] => none
  | c :: cs =>
    if c = '-' then (parseNatChars cs).map (fun k => -(Int.ofNat k))
    else (parseNatChars (c :: cs)).map (fun k => Int.ofNat k)

/-- Replaying the digit expansion recovers the number, for sufficient fuel. -/
theorem digitListVal_natDigitsAux :
    ∀ (fuel n : Nat), n ≤ fuel → digitListVal (natDigitsAux fuel n) = n
  | 0, n, h => by
    have hn : n = 0 := Nat.le_zero.mp h
    subst hn
    rfl
  | fuel + 1, n, h => by
    by_cases hn : n = 0
    · subst hn
      simp [natDigitsAux, digitListVal]
    · have hdiv : n / 10 ≤ fuel := by
        have hlt : n / 10 < n := Nat.div_lt_self (Nat.pos_of_ne_zero hn) (by omega)
        omega
      simp only [natDigitsAux, if_neg hn, digitListVal]
      rw [digitListVal_natDigitsAux fuel (n / 10) hdiv]
      omega

/-- Every produced digit is below ten. -/
theorem natDigitsAux_lt_ten :
    ∀ (fuel n d : Nat), d ∈ natDigitsAux fuel n → d < 10
  | 0, n, d, h => by simp [natDigitsAux] at h
  | fuel + 1, n, d, h => by
    by_cases hn : n = 0
    · subst hn
      simp [natDigitsAux] at h
    · simp only [natDigitsAux, if_neg hn, List.mem_cons] at h
      rcases h with h | h
      · omega
      · exact natDigitsAux_lt_ten fuel (n / 10) d h

/-- A nonzero number has at least one digit. -/
theorem natDigitsAux_ne_nil (fuel n : Nat) (hn : n ≠ 0) (hle : n ≤ fuel) :
    natDigitsAux fuel n ≠ [] := by
  cases fuel with
  | zero => exact absurd (Nat.le_zero.mp hle) hn
  | succ fuel => simp [natDigitsAux, hn]

/-- Every digit of `natDigits` is below ten. -/
theorem natDigits_lt_ten (n d : Nat) (h : d ∈ natDigits n) : d < 10 :=
  natDigitsAux_lt_ten n n d h

/-- Replaying `natDigits` recovers the number. -/
theorem digitListVal_natDigits (n : Nat) : digitListVal (natDigits n) = n :=
  digitListVal_natDigitsAux n n le_rfl

/-- A nonzero number has a nonempty digit list. -/
theorem natDigits_ne_nil (n : Nat) (hn : n ≠ 0) : natDigits n ≠ [] :=
  natDigitsAux_ne_nil n n hn le_rfl

/-- Digit characters parse back to their digit. -/
theorem digitVal_digitChar (d : Nat) (hd : d < 10) :
    digitVal (digitChar d) = some d := by
  interval_cases d <;> rfl

/-- Digit-character lists parse back to the digit list. -/
theorem parseDigitList_map_digitChar :
    ∀ (ds : List Nat), (∀ d ∈ ds, d < 10) →
      parseDigitList (ds.map digitChar) = some ds
  | [], _ => rfl
  | d :: ds, h => by
    simp only [List.map_cons, parseDigitList]
    rw [digitVal_digitChar d (h d (by simp)),
      parseDigitList_map_digitChar ds (fun x hx => h x (by simp [hx]))]

/-- The decimal printer and parser for naturals are inverse. -/
theorem parseNatChars_natChars (n : Nat) : parseNatChars (natChars n) = some n := by
  by_cases hn : n = 0
  · subst hn
    rfl
  · have hne : (natDigits n).reverse.map digitChar ≠ [] := by
      intro hnil
      simp only [List.map_eq_nil_iff, List.reverse_eq_nil_iff] at hnil
      exact natDigits_ne_nil n hn hnil
    have hparse : parseDigitList ((natDigits n).reverse.map digitChar)
        = some ((natDigits n).reverse) :=
      parseDigitList_map_digitChar ((natDigits n).reverse)
        (fun d hd => natDigits_lt_ten n d (List.mem_reverse.mp hd))
    unfold natChars parseNatChars
    rw [if_neg hn, if_neg hne, hparse]
    simp only [List.reverse_reverse, digitListVal_natDigits]

/-- The decimal representation is never empty. -/
theorem natChars_ne_nil (m : Nat) : natChars m ≠ [] := by
  by_cases hm : m = 0
  · subst hm
    intro h
    exact absurd h (by decide)
  · unfold natChars
    rw [if_neg hm]
    intro hnil
    simp only [List.map_eq_nil_iff, List.reverse_eq_nil_iff] at hnil
    exact natDigits_ne_nil m hm hnil

/-- The decimal representation of a natural never starts with a minus. -/
theorem natChars_head_ne_dash (m : Nat) :
    ∀ c cs, natChars m = c :: cs → c ≠ '-' := by
  intro c cs h
  by_cases hm : m = 0
  · have h0 : natChars 0 = ['0'] := rfl
    subst hm
    rw [h0] at h
    rw [← (List.cons.injEq ..).mp h |>.1]
    decide
  · unfold natChars at h
    rw [if_neg hm] at h
    have hmem : c ∈ (natDigits m).reverse.map digitChar := by
      rw [h]
      simp
    simp only [List.mem_map] at hmem
    obtain ⟨d, hd, hdc⟩ := hmem
    have hd10 : d < 10 := natDigits_lt_ten m d (List.mem_reverse.mp hd)
    rw [← hdc]
    interval_cases d <;> decide

/-- The signed decimal printer and parser are inverse. -/
theorem parseSignedChars_intChars (n : Int) :
    parseSignedChars (intChars n) = some n := by
  unfold intChars
  by_cases hneg : n < 0
  · rw [if_pos hneg]
    rw [show parseSignedChars ('-' :: natChars n.natAbs)
        = (parseNatChars (natChars n.natAbs)).map (fun k => -(Int.ofNat k)) from rfl]
    rw [parseNatChars_natChars, Option.map_some']
    congr 1
    rw [Int.ofNat_eq_coe]
    omega
  · rw [if_neg hneg]
    cases hcons : natChars n.natAbs with
    | nil => exact absurd hcons (natChars_ne_nil n.natAbs)
    | cons c cs =>
      have hc : c ≠ '-' := natChars_head_ne_dash n.natAbs c cs hcons
      have hrw : parseSignedChars (c :: cs)
          = (parseNatChars (c :: cs)).map (fun k => Int.ofNat k) := by
        simp [parseSignedChars, hc]
      rw [hrw, ← hcons, parseNatChars_natChars, Option.map_some']
      congr 1
      rw [Int.ofNat_eq_coe]
      omega

/-- Lower-case hexadecimal character of one hex digit. -/
def hexDigitChar (d : Nat) : Char :=
  if d < 10 then Char.ofNat (48 + d) else Char.ofNat (87 + d)

/-- Value of one lower-case hexadecimal character. -/
def hexVal (c : Char) : Option (Fin 16) :=
  if h : 48 ≤ c.toNat ∧ c.toNat ≤ 57 then some ⟨c.toNat - 48, by omega⟩
  else if h2 : 97 ≤ c.toNat ∧ c.toNat ≤ 102 then some ⟨c.toNat - 87, by omega⟩
  else none

/-- Two-character lower-case hexadecimal representation of one byte. -/
def byteChars (b : Fin 256) : List Char :=
  [hexDigitChar (b.val / 16), hexDigitChar (b.val % 16)]

/-- Hexadecimal representation of a byte buffer. -/
def bytesHexChars (bs : List (Fin 256)) : List Char :=
  (bs.map byteChars).flatten

/-- Parse a hexadecimal character list as a byte buffer (two characters
per byte). -/
def parseHexPairs : List Char → Option (List (Fin 256))
  | [] => some []
  | c1 :: c2 :: rest =>
    match hexVal c1, hexVal c2, parseHexPairs rest with
    | some hi, some lo, some bs =>
        some (⟨hi.val * 16 + lo.val, by
          have h1 := hi.isLt
          have h2 := lo.isLt
          omega⟩ :: bs)
    | _, _, _ => none
  | [_] => none

/-- Hex digit characters parse back to their value. -/
theorem hexVal_hexDigitChar : ∀ d : Fin 16, hexVal (hexDigitChar d.val) = some d := by
  decide

/-- The hexadecimal printer and parser for byte buffers are inverse. -/
theorem parseHexPairs_bytesHexChars :
    ∀ (bs : List (Fin 256)), parseHexPairs (bytesHexChars bs) = some bs
  | [] => rfl
  | b :: bs => by
    have hblt := b.isLt
    have h1 : hexVal (hexDigitChar (b.val / 16))
        = some ⟨b.val / 16, by omega⟩ :=
      hexVal_hexDigitChar ⟨b.val / 16, by omega⟩
    have h2 : hexVal (hexDigitChar (b.val % 16))
        = some ⟨b.val % 16, by omega⟩ :=
      hexVal_hexDigitChar ⟨b.val % 16, by omega⟩
    have hrest := parseHexPairs_bytesHexChars bs
    simp only [bytesHexChars, List.map_cons, List.flatten_cons, byteChars,
      List.cons_append, List.nil_append] at hrest ⊢
    simp only [parseHexPairs, h1, h2, hrest]
    congr 2
    apply Fin.ext
    show b.val / 16 * 16 + b.val % 16 = b.val
    omega

/-- Opening characters of the bigint tagged string. -/
def bigintOpen : List Char := ['<', 'b', 'i', 'g', 'i', 'n', 't', ':', ' ']

/-- Closing characters of the bigint tagged string. -/
def bigintClose : List Char := ['n', '>']

/-- Opening characters of the byte-buffer tagged string. -/
def bytesOpen : List Char :=
  ['<', 'U', 'i', 'n', 't', '8', 'A', 'r', 'r', 'a', 'y', ':', ' ', '0', 'x']

/-- Closing characters of the byte-buffer tagged string. -/
def bytesClose : List Char := ['>']

/-- Remove an expected leading character sequence, or fail. -/
def dropLead : List Char → List Char → Option (List Char)
  | [], cs => some cs
  | _ :: _, [] => none
  | p :: ps, c :: cs => if c = p then dropLead ps cs else none

/-- Remove an expected trailing character sequence, or fail. -/
def dropTail (expected cs : List Char) : Option (List Char) :=
  (dropLead expected.reverse cs.reverse).map List.reverse

/-- Dropping a literal leading sequence succeeds exactly on the rest. -/
theorem dropLead_append (p : List Char) : ∀ cs, dropLead p (p ++ cs) = some cs := by
  induction p with
  | nil => intro cs; rfl
  | cons c p ih => intro cs; simp [dropLead, ih]

/-- Dropping a literal trailing sequence succeeds exactly on the front. -/
theorem dropTail_append (q cs : List Char) : dropTail q (cs ++ q) = some cs := by
  unfold dropTail
  rw [List.reverse_append, dropLead_append]
  simp

/-- Character content of the "<bigint: Nn>" tagged string for an integer. -/
def bigintTagChars (n : Int) : List Char := bigintOpen ++ intChars n ++ bigintClose

/-- Character content of the "<Uint8Array: 0xHEX>" tagged string for a
byte buffer. -/
def bytesTagChars (bs : List (Fin 256)) : List Char :=
  bytesOpen ++ bytesHexChars bs ++ bytesClose

/-- Recognize a bigint tagged string and recover its integer. -/
def parseBigintTag (cs : List Char) : Option Int :=
  match dropLead bigintOpen cs with
  | none => none
  | some body =>
    match dropTail bigintClose body with
    | none => none
    | some digitPart => parseSignedChars digitPart

/-- Recognize a byte-buffer tagged string and recover its bytes. -/
def parseBytesTag (cs : List Char) : Option (List (Fin 256)) :=
  match dropLead bytesOpen cs with
  | none => none
  | some body =>
    match dropTail bytesClose body with
    | none => none
    | some hexPart => parseHexPairs hexPart

/-- A produced bigint tag parses back to its integer. -/
theorem parseBigintTag_tag (n : Int) : parseBigintTag (bigintTagChars n) = some n := by
  simp [parseBigintTag, bigintTagChars, List.append_assoc, dropLead_append,
    dropTail_append, parseSignedChars_intChars]

/-- A produced byte-buffer tag parses back to its bytes. -/
theorem parseBytesTag_tag (bs : List (Fin 256)) :
    parseBytesTag (bytesTagChars bs) = some bs := by
  simp [parseBytesTag, bytesTagChars, List.append_assoc, dropLead_append,
    dropTail_append, parseHexPairs_bytesHexChars]

/-- A byte-buffer tag is never mistaken for a bigint tag. -/
theorem parseBigintTag_bytesTag (bs : List (Fin 256)) :
    parseBigintTag (bytesTagChars bs) = none := rfl

mutual
/-- Extended-JSON value tree.  Modelled from the spec: the helpers
`stringifyExtendedJson` and `parseExtendedJson` used at JsonRpcContext.tsx
lines 1546 and 1618 live in src/helpers, which is not among the provided
sources; per spec §4.2 the encoding round-trips arbitrary-precision
integers-as-strings and byte-buffers-as-tagged-strings losslessly, and
the tagged shapes "<bigint: ...n>" and "<Uint8Array: 0x...>" appear
verbatim in the BCH payload literal of JsonRpcContext.tsx (lines
1326-1453). -/
inductive ExtJson where
  | null
  | bool (b : Bool)
  | num (n : Int)
  | str (s : String)
  | bigint (n : Int)
  | bytes (bs : List (Fin 256))
  | arr (items : ExtJsonItems)
  | obj (fields : ExtJsonFields)

/-- Array elements of an extended-JSON value. -/
inductive ExtJsonItems where
  | nil
  | cons (head : ExtJson) (tail : ExtJsonItems)

/-- Object fields of an extended-JSON value. -/
inductive ExtJsonFields where
  | nil
  | cons (key : String) (value : ExtJson) (tail : ExtJsonFields)
end

mutual
/-- Plain JSON value tree, the image of the extended encoding. -/
inductive Json where
  | null
  | bool (b : Bool)
  | num (n : Int)
  | str (s : String)
  | arr (items : JsonItems)
  | obj (fields : JsonFields)

/-- Array elements of a plain JSON value. -/
inductive JsonItems where
  | nil
  | cons (head : Json) (tail : JsonItems)

/-- Object fields of a plain JSON value. -/
inductive JsonFields where
  | nil
  | cons (key : String) (value : Json) (tail : JsonFields)
end

mutual
/-- Modelled from the spec: the value-level content of
`stringifyExtendedJson` — bigints become "<bigint: Nn>" tagged strings,
byte buffers become "<Uint8Array: 0xHEX>" tagged strings, every other
value is encoded as plain JSON. -/
def stringifyExtendedJson : ExtJson → Json
  | ExtJson.null => Json.null
  | ExtJson.bool b => Json.bool b
  | ExtJson.num n => Json.num n
  | ExtJson.str s => Json.str s
  | ExtJson.bigint n => Json.str (String.mk (bigintTagChars n))
  | ExtJson.bytes bs => Json.str (String.mk (bytesTagChars bs))
  | ExtJson.arr items => Json.arr (stringifyExtendedItems items)
  | ExtJson.obj fields => Json.obj (stringifyExtendedFields fields)

/-- Encode array elements pointwise. -/
def stringifyExtendedItems : ExtJsonItems → JsonItems
  | ExtJsonItems.nil => JsonItems.nil
  | ExtJsonItems.cons x xs =>
      JsonItems.cons (stringifyExtendedJson x) (stringifyExtendedItems xs)

/-- Encode object fields pointwise. -/
def stringifyExtendedFields : ExtJsonFields → JsonFields
  | ExtJsonFields.nil => JsonFields.nil
  | ExtJsonFields.cons k v fs =>
      JsonFields.cons k (stringifyExtendedJson v) (stringifyExtendedFields fs)
end

/-- Modelled from the spec: the reviver `parseExtendedJson` applies to one
string leaf — a string matching the bigint tag becomes the tagged
integer, a string matching the byte-buffer tag becomes the tagged bytes,
any other string stays a string. -/
def parseExtendedLeaf (s : String) : ExtJson :=
  match parseBigintTag s.data with
  | some n => ExtJson.bigint n
  | none =>
    match parseBytesTag s.data with
    | some bs => ExtJson.bytes bs
    | none => ExtJson.str s

mutual
/-- Modelled from the spec: the value-level content of
`parseExtendedJson` — every string leaf goes through the tag reviver,
everything else is decoded structurally. -/
def parseExtendedJson : Json → ExtJson
  | Json.null => ExtJson.null
  | Json.bool b => ExtJson.bool b
  | Json.num n => ExtJson.num n
  | Json.str s => parseExtendedLeaf s
  | Json.arr items => ExtJson.arr (parseExtendedItems items)
  | Json.obj fields => ExtJson.obj (parseExtendedFields fields)

/-- Decode array elements pointwise. -/
def parseExtendedItems : JsonItems → ExtJsonItems
  | JsonItems.nil => ExtJsonItems.nil
  | JsonItems.cons x xs =>
      ExtJsonItems.cons (parseExtendedJson x) (parseExtendedItems xs)

/-- Decode object fields pointwise. -/
def parseExtendedFields : JsonFields → ExtJsonFields
  | JsonFields.nil => ExtJsonFields.nil
  | JsonFields.cons k v fs =>
      ExtJsonFields.cons k (parseExtendedJson v) (parseExtendedFields fs)
end

mutual
/-- A value has plain strings when none of its string leaves collides
with a tagged-string shape, so decoding cannot confuse it. -/
def plainStrings : ExtJson → Bool
  | ExtJson.null => true
  | ExtJson.bool _ => true
  | ExtJson.num _ => true
  | ExtJson.str s => (parseBigintTag s.data).isNone && (parseBytesTag s.data).isNone
  | ExtJson.bigint _ => true
  | ExtJson.bytes _ => true
  | ExtJson.arr items => plainStringsItems items
  | ExtJson.obj fields => plainStringsFields fields

/-- Plain-string condition over array elements. -/
def plainStringsItems : ExtJsonItems → Bool
  | ExtJsonItems.nil => true
  | ExtJsonItems.cons x xs => plainStrings x && plainStringsItems xs

/-- Plain-string condition over object fields. -/
def plainStringsFields : ExtJsonFields → Bool
  | ExtJsonFields.nil => true
  | ExtJsonFields.cons _ v fs => plainStrings v && plainStringsFields fs
end

mutual
/-- Round trip of the extended-JSON encoding on values. -/
theorem parse_stringify :
    ∀ (v : ExtJson), plainStrings v = true →
      parseExtendedJson (stringifyExtendedJson v) = v
  | ExtJson.null, _ => rfl
  | ExtJson.bool b, _ => rfl
  | ExtJson.num n, _ => rfl
  | ExtJson.str s, h => by
    simp only [plainStrings, Bool.and_eq_true, Option.isNone_iff_eq_none] at h
    simp [stringifyExtendedJson, parseExtendedJson, parseExtendedLeaf, h.1, h.2]
  | ExtJson.bigint n, _ => by
    simp [stringifyExtendedJson, parseExtendedJson, parseExtendedLeaf, parseBigintTag_tag]
  | ExtJson.bytes bs, _ => by
    simp [stringifyExtendedJson, parseExtendedJson, parseExtendedLeaf,
      parseBigintTag_bytesTag, parseBytesTag_tag]
  | ExtJson.arr items, h => by
    simp only [stringifyExtendedJson, parseExtendedJson]
    rw [parse_stringify_items items (by simpa [plainStrings] using h)]
  | ExtJson.obj fields, h => by
    simp only [stringifyExtendedJson, parseExtendedJson]
    rw [parse_stringify_fields fields (by simpa [plainStrings] using h)]

/-- Round trip of the extended-JSON encoding on array elements. -/
theorem parse_stringify_items :
    ∀ (l : ExtJsonItems), plainStringsItems l = true →
      parseExtendedItems (stringifyExtendedItems l) = l
  | ExtJsonItems.nil, _ => rfl
  | ExtJsonItems.cons x xs, h => by
    have hx : plainStrings x = true := by
      simp only [plainStringsItems, Bool.and_eq_true] at h
      exact h.1
    have hxs : plainStringsItems xs = true := by
      simp only [plainStringsItems, Bool.and_eq_true] at h
      exact h.2
    simp only [stringifyExtendedItems, parseExtendedItems]
    rw [parse_stringify x hx, parse_stringify_items xs hxs]

/-- Round trip of the extended-JSON encoding on object fields. -/
theorem parse_stringify_fields :
    ∀ (l : ExtJsonFields), plainStringsFields l = true →
      parseExtendedFields (stringifyExtendedFields l) = l
  | ExtJsonFields.nil, _ => rfl
  | ExtJsonFields.cons k v fs, h => by
    have hv : plainStrings v = true := by
      simp only [plainStringsFields, Bool.and_eq_true] at h
      exact h.1
    have hfs : plainStringsFields fs = true := by
      simp only [plainStringsFields, Bool.and_eq_true] at h
      exact h.2
    simp only [stringifyExtendedFields, parseExtendedFields]
    rw [parse_stringify v hv, parse_stringify_fields fs hfs]
end

/-- Claim C9: encoding an extended-JSON structure — in particular one
containing an arbitrary-precision integer and a byte buffer — with the
extended stringifier and decoding it with the extended parser reproduces
the original values exactly, with no precision loss and no confusion
with plain numbers or strings (provided, necessarily, that no plain
string leaf itself spells a tagged string). -/
theorem extendedJson_round_trip (v : ExtJson) (h : plainStrings v = true) :
    parseExtendedJson (stringifyExtendedJson v) = v :=
  parse_stringify v h

/-- Sample structure with a beyond-53-bit integer, a byte buffer, a plain
string and a plain number. -/
def sampleExtStructure : ExtJson :=
  ExtJson.obj
    (ExtJsonFields.cons "balance" (ExtJson.bigint 18446744073709551621)
      (ExtJsonFields.cons "commitment" (ExtJson.bytes [254, 237])
        (ExtJsonFields.cons "note" (ExtJson.str "hello")
          (ExtJsonFields.cons "count" (ExtJson.num 7) ExtJsonFields.nil))))

/-- Witness for C9 at the concrete sample structure. -/
theorem extendedJson_round_trip_witness :
    plainStrings sampleExtStructure = true ∧
    parseExtendedJson (stringifyExtendedJson sampleExtStructure) = sampleExtStructure :=
  ⟨rfl, extendedJson_round_trip sampleExtStructure rfl⟩
